import Mathlib

/-!
Shallow embedding of the flow-visualization core of the MuleSoft
documentation generator (src/generator/flow_visualizer.py), together with
theorems settling the claims about it.

Python attribute presence is modelled with Option: a field value of none
means the attribute is absent; some v means the attribute is present with
value v. Python truthiness of strings (empty string is falsy) and booleans
is made explicit via truthyStr and truthyBool. The Mermaid diagram text,
assembled line by line in the source, is modelled as a list of typed line
records plus a rendering function producing exactly the emitted strings.
-/

namespace FlowViz

/-- Nested configuration object of a processor (processor.config in the
source); its name attribute may be absent. -/
structure Config where
  name : Option String
deriving DecidableEq, Repr

/-- A processor record as accessed by generate_flow_diagram: a kind tag
(processor.type), an optional nested config, and an optional flat name. -/
structure Processor where
  type : Option String
  config : Option Config
  name : Option String
deriving DecidableEq, Repr

/-- A flow record as accessed by the visualizer: id, display name,
sub-flow flag, source trigger and processor list, each possibly absent. -/
structure Flow where
  id : Option String
  name : Option String
  is_subflow : Option Bool
  source : Option String
  processors : Option (List Processor)
deriving DecidableEq, Repr

/-- The interface object; its flows attribute may be absent (absence also
covers a present None value, which the source treats as falsy in
generate_flow_diagram and which raises in generate_visualization). -/
structure Interface where
  flows : Option (List Flow)
deriving DecidableEq, Repr

/-- Python truthiness of an optional string attribute: present and
non-empty. -/
def truthyStr : Option String → Bool
  | none => false
  | some s => s ≠ ""

/-- Python truthiness of an optional boolean attribute: present and true. -/
def truthyBool : Option Bool → Bool
  | none => false
  | some b => b

/-- Character class of the identifier tail in the target regex
[A-Za-z0-9_]. -/
def isIdentTail (c : Char) : Bool :=
  c.isAlphanum || c == '_'

/-- One character of the re.sub in _sanitize_id: characters outside
[a-zA-Z0-9_] are replaced by an underscore. -/
def sanitizeChar (c : Char) : Char :=
  if c.isAlphanum || c == '_' then c else '_'

/-- FlowVisualizer._sanitize_id: empty input falls back to "unknown";
otherwise every character outside [a-zA-Z0-9_] becomes an underscore and,
when the first resulting character is not a letter, "f_" is prepended. -/
def sanitize_id (id_str : String) : String :=
  if id_str.data = [] then "unknown"
  else
    let sanitized := id_str.data.map sanitizeChar
    match sanitized with
    | [] => String.mk sanitized
    | c :: _ => if c.isAlpha then String.mk sanitized else String.mk ('f' :: '_' :: sanitized)

/-- The result shape required of sanitized identifiers: a match of the
regular expression with head [A-Za-z] and tail [A-Za-z0-9_]*. -/
def matchesIdent (s : String) : Bool :=
  match s.data with
  | [] => false
  | c :: rest => c.isAlpha && rest.all isIdentTail

/-- FlowVisualizer._escape_text: an initially empty (or absent, collapsed
to empty) label falls back to "Unnamed Flow"; otherwise double quotes are
stripped and bracket-like characters are replaced in the fixed source
order. -/
def escape_text (text : String) : String :=
  if text = "" then "Unnamed Flow"
  else
    let e0 := text.data.filter (fun c => c ≠ '"')
    let e1 := e0.map (fun c => if c = '[' then '(' else c)
    let e2 := e1.map (fun c => if c = ']' then ')' else c)
    let e3 := e2.map (fun c => if c = '<' then '(' else c)
    let e4 := e3.map (fun c => if c = '>' then ')' else c)
    let e5 := e4.map (fun c => if c = '&' then '+' else c)
    let e6 := e5.map (fun c => if c = '\\' then '/' else c)
    String.mk e6

/-- Node categories as distinguished by the if/elif/else chain of the
first pass of generate_flow_diagram. -/
inductive Category
  | reusable
  | entry
  | plain
deriving DecidableEq, Repr

/-- The classification performed by the if/elif/else chain: the sub-flow
flag is checked first, then a truthy source, else plain. -/
def classify_flow (flow : Flow) : Category :=
  if truthyBool flow.is_subflow then Category.reusable
  else if truthyStr flow.source then Category.entry
  else Category.plain

/-- One line of the Mermaid diagram, as a typed record; renderLine maps
each record to exactly the string the source appends. -/
inductive DiagramLine
  | header
  | nodeDecl (safeId : String) (cat : Category) (label : String)
  | styleLine (safeId : String) (cat : Category)
  | edge (fromId : String) (toId : String)
deriving DecidableEq, Repr

/-- Rendering of a diagram line record to the exact string emitted by the
source. -/
def renderLine : DiagramLine → String
  | DiagramLine.header => "graph TD"
  | DiagramLine.nodeDecl sid Category.reusable label => sid ++ "[" ++ label ++ "]"
  | DiagramLine.nodeDecl sid Category.entry label => sid ++ "(" ++ label ++ ")"
  | DiagramLine.nodeDecl sid Category.plain label => sid ++ "[" ++ label ++ "]"
  | DiagramLine.styleLine sid Category.reusable => "style " ++ sid ++ " fill:#e1f5fe,stroke:#0277bd"
  | DiagramLine.styleLine sid Category.entry => "style " ++ sid ++ " fill:#e8f5e9,stroke:#2e7d32"
  | DiagramLine.styleLine sid Category.plain => "style " ++ sid ++ " fill:#f9f9f9,stroke:#333"
  | DiagramLine.edge a b => a ++ " --> " ++ b

/-- The display label passed to _escape_text: getattr with the raw id as
default when the name attribute is absent. -/
def displayName (flow : Flow) (rawId : String) : String :=
  match flow.name with
  | some n => n
  | none => rawId

/-- First pass of generate_flow_diagram: iterate flows, skip absent or
empty ids, sanitize, skip safeIds already in the nodes set, otherwise emit
a node-declaration line and a style line and register the safeId. Returns
the emitted lines and the final nodes set (modelled as a list). -/
def nodesPass : List Flow → List String → List DiagramLine × List String
  | [], nodes => ([], nodes)
  | flow :: rest, nodes =>
    match flow.id with
    | none => nodesPass rest nodes
    | some rawId =>
      if rawId = "" then nodesPass rest nodes
      else
        let fid := sanitize_id rawId
        if fid ∈ nodes then nodesPass rest nodes
        else
          let r := nodesPass rest (nodes ++ [fid])
          (DiagramLine.nodeDecl fid (classify_flow flow) (escape_text (displayName flow rawId)) ::
            DiagramLine.styleLine fid (classify_flow flow) :: r.1, r.2)

/-- Reference-name extraction for one processor (lines 80-87 of the
source): only for the reserved kind tag "flow-ref"; the value of
config.name is taken whenever the config attribute and its name attribute
are both present, and the flat name attribute is consulted only
otherwise. -/
def extractRefName (p : Processor) : Option String :=
  if p.type = some "flow-ref" then
    match p.config with
    | some cfg =>
      match cfg.name with
      | some n => some n
      | none => p.name
    | none => p.name
  else none

/-- Inner processor loop of the second pass (lines 79-98 of the source):
for each processor, extract a reference name, drop falsy names, sanitize,
keep only targets whose safeId is among the known nodes, and emit an edge
line only when the (from, to) link is not yet in the links set. Returns
the emitted edge lines, the final links set and the per-flow references
list (the raw names recorded in emission order). -/
def processRefs (fid : String) (nodes : List String) :
    List Processor → List (String × String) →
    List DiagramLine × List (String × String) × List String
  | [], links => ([], links, [])
  | p :: rest, links =>
    match extractRefName p with
    | some refName =>
      if refName = "" then processRefs fid nodes rest links
      else
        let rid := sanitize_id refName
        if rid ∈ nodes then
          if (fid, rid) ∈ links then processRefs fid nodes rest links
          else
            let r := processRefs fid nodes rest (links ++ [(fid, rid)])
            (DiagramLine.edge fid rid :: r.1, r.2.1, refName :: r.2.2)
        else processRefs fid nodes rest links
    | none => processRefs fid nodes rest links

/-- Dictionary insertion with Python semantics: overwriting an existing
key keeps its position, a new key is appended. -/
def dictSet {α : Type} (d : List (String × α)) (k : String) (v : α) :
    List (String × α) :=
  if d.any (fun e => e.1 = k) then d.map (fun e => if e.1 = k then (k, v) else e)
  else d ++ [(k, v)]

/-- Dictionary lookup. -/
def dictGet {α : Type} (d : List (String × α)) (k : String) : Option α :=
  (d.find? (fun e => e.1 = k)).map (fun e => e.2)

/-- Second pass of generate_flow_diagram: iterate flows again, skip
absent or empty ids, run the processor loop against the nodes set from
the first pass, and store the per-flow references under the raw flow id
only when the list is non-empty. Returns the emitted edge lines, the
final links set and the flow_references dictionary. -/
def edgesPass (nodes : List String) :
    List Flow → List (String × String) → List (String × List String) →
    List DiagramLine × List (String × String) × List (String × List String)
  | [], links, refIdx => ([], links, refIdx)
  | flow :: rest, links, refIdx =>
    match flow.id with
    | none => edgesPass nodes rest links refIdx
    | some rawId =>
      if rawId = "" then edgesPass nodes rest links refIdx
      else
        let fid := sanitize_id rawId
        match flow.processors with
        | some procs =>
          let r := processRefs fid nodes procs links
          let refIdx2 := if r.2.2 = [] then refIdx else dictSet refIdx rawId r.2.2
          let r2 := edgesPass nodes rest r.2.1 refIdx2
          (r.1 ++ r2.1, r2.2.1, r2.2.2)
        | none => edgesPass nodes rest links refIdx

/-- The minimal diagram returned for an absent interface, an absent
flows attribute or an empty flows list; rendered it is exactly the
string "graph TD" followed by "A[No flows found]". -/
def noFlowsDiagram : List DiagramLine :=
  [DiagramLine.header, DiagramLine.nodeDecl "A" Category.plain "No flows found"]

/-- FlowVisualizer.generate_flow_diagram: the guard for an absent or
empty flow collection, then the two passes. Returns the diagram lines
and the flow_references dictionary. -/
def generate_flow_diagram (interface : Option Interface) :
    List DiagramLine × List (String × List String) :=
  match interface with
  | none => (noFlowsDiagram, [])
  | some i =>
    match i.flows with
    | none => (noFlowsDiagram, [])
    | some [] => (noFlowsDiagram, [])
    | some flows =>
      let np := nodesPass flows []
      let ep := edgesPass np.2 flows [] []
      (DiagramLine.header :: (np.1 ++ ep.1), ep.2.2)

/-- The diagram text as returned by the source: the lines joined with
newlines. -/
def diagramText (interface : Option Interface) : String :=
  String.intercalate "\n" ((generate_flow_diagram interface).1.map renderLine)

/-- One node of the D3 visualization data built by
generate_visualization. -/
structure VizNode where
  id : Nat
  name : String
  type : String
deriving DecidableEq, Repr

/-- One link of the D3 visualization data. -/
structure VizLink where
  source : Nat
  target : Nat
deriving DecidableEq, Repr

/-- The flow_data object of generate_visualization. -/
structure FlowData where
  nodes : List VizNode
  links : List VizLink
deriving DecidableEq, Repr

/-- Node type string assigned by generate_visualization (lines 228-230):
"subflow" when the sub-flow flag is truthy, else "flow", overridden to
"source" whenever the source attribute is truthy. -/
def viz_node_type (flow : Flow) : String :=
  let is_subflow := truthyBool flow.is_subflow
  let node_type := if is_subflow then "subflow" else "flow"
  if truthyStr flow.source then "source" else node_type

/-- The nodes array built by generate_visualization: one entry for every
flow of the input, in order, with the enumeration index as id and the
raw id (default "unknown" when absent) as name. -/
def vizNodes (flows : List Flow) : List VizNode :=
  flows.enum.map (fun p =>
    { id := p.1, name := p.2.id.getD "unknown", type := viz_node_type p.2 })

/-- The node_map dictionary of generate_visualization: raw flow id
(default "unknown") mapped to the enumeration index, later entries
overwriting earlier ones. -/
def node_map (flows : List Flow) : List (String × Nat) :=
  flows.enum.foldl (fun m p => dictSet m (p.2.id.getD "unknown") p.1) []

/-- The links array built by generate_visualization: for each entry of
flow_references whose key resolves in node_map, one link per target that
also resolves in node_map. -/
def vizLinks (flow_references : List (String × List String))
    (nmap : List (String × Nat)) : List VizLink :=
  (flow_references.map (fun e =>
    match dictGet nmap e.1 with
    | some source_idx =>
      e.2.filterMap (fun t => (dictGet nmap t).map (fun ti => VizLink.mk source_idx ti))
    | none => [])).flatten

/-- The non-I/O computation of generate_visualization: the diagram and
references are produced first (total), then interface.flows is accessed
without a guard, which raises when the interface or its flows attribute
is absent; with a flows list present the nodes and links are built
without any further fallible access. -/
def generate_visualization_data (interface : Option Interface) :
    Except String (String × FlowData) :=
  let dr := generate_flow_diagram interface
  let diagram_content := String.intercalate "\n" (dr.1.map renderLine)
  match interface with
  | none => Except.error "AttributeError: interface has no attribute flows"
  | some i =>
    match i.flows with
    | none => Except.error "AttributeError: interface has no attribute flows"
    | some flows =>
      Except.ok (diagram_content,
        { nodes := vizNodes flows, links := vizLinks dr.2 (node_map flows) })

/-- Test for an edge line of the diagram. -/
def isEdgeLine : DiagramLine → Bool
  | DiagramLine.edge _ _ => true
  | _ => false

/-- Test for a node-declaration line carrying the given safeId. -/
def isDeclFor (sid : String) : DiagramLine → Bool
  | DiagramLine.nodeDecl s _ _ => s == sid
  | _ => false

/-- Test for a style line carrying the given safeId. -/
def isStyleFor (sid : String) : DiagramLine → Bool
  | DiagramLine.styleLine s _ => s == sid
  | _ => false

/-- Test for a flow that the first pass would register under the given
safeId: a present non-empty id sanitizing to it. -/
def flowHasSafeId (sid : String) (f : Flow) : Bool :=
  match f.id with
  | some r => (!(r == "")) && (sanitize_id r == sid)
  | none => false

/-- The directed edge pairs of a line list, in order. -/
def pairsOf (ls : List DiagramLine) : List (String × String) :=
  ls.filterMap (fun l =>
    match l with
    | DiagramLine.edge a b => some (a, b)
    | _ => none)

/-- A flow record declaring both classification signals: the sub-flow
flag set and a truthy source trigger. -/
def bothFlagsFlow : Flow :=
  { id := some "F", name := none, is_subflow := some true, source := some "http",
    processors := none }

/-- A plain flow with id "A" and no processors, used to exhibit safeId
duplication. -/
def dupFlow : Flow :=
  { id := some "A", name := none, is_subflow := none, source := none, processors := none }

/-- A processor whose structured sub-field is present but empty while the
flat name field carries a resolvable target. -/
def emptyCfgProcessor : Processor :=
  { type := some "flow-ref", config := some { name := some "" }, name := some "Target" }

/-- A flow named Target, referenced by fCaller. -/
def fTarget : Flow :=
  { id := some "Target", name := none, is_subflow := none, source := none,
    processors := some [] }

/-- A flow named Caller holding only the present-but-empty structured
reference. -/
def fCaller : Flow :=
  { id := some "Caller", name := none, is_subflow := none, source := none,
    processors := some [emptyCfgProcessor] }

/-- The two-flow interface for the structured-sub-field scenario. -/
def c3Iface : Option Interface :=
  some { flows := some [fTarget, fCaller] }

/-- A flow record with every attribute present but degenerate: empty id,
empty name, false flag, empty source, one unknown processor kind. -/
def weirdFlow : Flow :=
  { id := some "", name := some "", is_subflow := some false, source := some "",
    processors := some [{ type := some "mystery-op", config := some { name := none },
                          name := none }] }

/-- A flow invoking RefTarget through the flat name field. -/
def fRefSource : Flow :=
  { id := some "RefSource", name := none, is_subflow := none, source := none,
    processors := some [{ type := some "flow-ref", config := none,
                          name := some "RefTarget" }] }

/-- The flow referenced by fRefSource. -/
def fRefTarget : Flow :=
  { id := some "RefTarget", name := none, is_subflow := none, source := none,
    processors := some [] }

/-- An interface with one resolved reference, used as concrete witness
input. -/
def refIface : Option Interface :=
  some { flows := some [fRefSource, fRefTarget] }

/-- A sub-flow whose id normalizes to the safeId My_Flow. -/
def fColl1 : Flow :=
  { id := some "My Flow", name := none, is_subflow := some true, source := none,
    processors := none }

/-- A plain flow whose distinct id normalizes to the same safeId
My_Flow. -/
def fColl2 : Flow :=
  { id := some "My-Flow", name := none, is_subflow := none, source := none,
    processors := none }

/-- The interface holding the two colliding flows. -/
def collIface : Interface :=
  { flows := some [fColl1, fColl2] }

/-- Every character produced by the sanitizing substitution lies in the
identifier tail class [A-Za-z0-9_]. -/
theorem isIdentTail_sanitizeChar (c : Char) : isIdentTail (sanitizeChar c) = true := by
  unfold sanitizeChar isIdentTail
  cases h : (c.isAlphanum || c == '_') <;> simp [h]

/-- Every sanitized character list passes the identifier tail check. -/
theorem all_identTail_map (cs : List Char) :
    (cs.map sanitizeChar).all isIdentTail = true := by
  rw [List.all_eq_true]
  intro x hx
  obtain ⟨c, _, rfl⟩ := List.mem_map.mp hx
  exact isIdentTail_sanitizeChar c

/-- Unfolding of the regex check on an explicitly non-empty character
list. -/
theorem matchesIdent_mk (c : Char) (l : List Char) :
    matchesIdent (String.mk (c :: l)) = (c.isAlpha && l.all isIdentTail) := rfl

/-- Claim C1 counterexample: on a record exposing both the sub-flow flag
and a truthy source, the diagram classifies REUSABLE but the
visualization assigns the type string "source", not "subflow", so the
two layers do not agree as the claim states. -/
theorem claim_C1_counterexample :
    classify_flow bothFlagsFlow = Category.reusable ∧
    viz_node_type bothFlagsFlow = "source" ∧ viz_node_type bothFlagsFlow ≠ "subflow" := by
  refine ⟨rfl, rfl, ?_⟩
  decide

/-- Claim C1 (amended): for every flow record exposing both the sub-flow
flag and a non-empty source, generate_flow_diagram classifies the node
REUSABLE (REUSABLE wins there), while generate_visualization assigns the
node type string "source" (ENTRY wins there): the two outputs disagree
on such records. -/
theorem claim_C1 (flow : Flow) (h1 : truthyBool flow.is_subflow = true)
    (h2 : truthyStr flow.source = true) :
    classify_flow flow = Category.reusable ∧ viz_node_type flow = "source" := by
  constructor
  · simp [classify_flow, h1]
  · simp [viz_node_type, h2]

/-- Claim C1 witness: the amended statement instantiated at the concrete
both-flags record. -/
theorem claim_C1_witness :
    classify_flow bothFlagsFlow = Category.reusable ∧
    viz_node_type bothFlagsFlow = "source" :=
  claim_C1 bothFlagsFlow (by decide) (by decide)

/-- Claim C3 counterexample: with a flow-ref processor whose structured
sub-field is present but empty and whose flat name field names an
existing flow, no edge is produced and the reference index stays empty,
contradicting the first-non-empty-wins reading. -/
theorem claim_C3_counterexample :
    extractRefName emptyCfgProcessor = some "" ∧
    (generate_flow_diagram c3Iface).2 = [] ∧
    DiagramLine.edge "Caller" "Target" ∉ (generate_flow_diagram c3Iface).1 := by
  decide

/-- Claim C3 (amended): presence wins, not non-emptiness: when the
structured sub-field config.name is present, its value is extracted even
if empty, and an empty value makes the processor loop drop the reference
entirely — the flat name field is never consulted. -/
theorem claim_C3 (p : Processor) (cfg : Config) (fid : String) (nodes : List String)
    (links : List (String × String))
    (h1 : p.type = some "flow-ref") (h2 : p.config = some cfg) (h3 : cfg.name = some "") :
    extractRefName p = some "" ∧ processRefs fid nodes [p] links = ([], links, []) := by
  have he : extractRefName p = some "" := by
    simp [extractRefName, h1, h2, h3]
  exact ⟨he, by simp [processRefs, he]⟩

/-- Claim C3 witness: the amended statement instantiated at the concrete
present-but-empty processor with both safeIds known. -/
theorem claim_C3_witness :
    extractRefName emptyCfgProcessor = some "" ∧
    processRefs "Caller" ["Target", "Caller"] [emptyCfgProcessor] [] = ([], [], []) :=
  claim_C3 emptyCfgProcessor { name := some "" } "Caller" ["Target", "Caller"] [] rfl rfl rfl

/-- Claim C4 counterexample: a label consisting only of double quotes
escapes to the empty string, not to the fallback "Unnamed Flow". -/
theorem claim_C4_counterexample :
    escape_text "\"\"" = "" ∧ escape_text "\"\"" ≠ "Unnamed Flow" := by
  decide

/-- Claim C4 (amended): the "Unnamed Flow" fallback applies only to an
initially empty or absent label; any non-empty label made entirely of
double quotes escapes to the empty string, which is used as-is. -/
theorem claim_C4 (s : String) (hne : s ≠ "") (hq : ∀ c ∈ s.data, c = '"') :
    escape_text s = "" := by
  unfold escape_text
  rw [if_neg hne]
  have hf : s.data.filter (fun c => decide (c ≠ '"')) = [] := by
    rw [List.filter_eq_nil_iff]
    intro c hc
    simp [hq c hc]
  simp only [hf, List.map_nil]

/-- Claim C4 witness: the amended statement instantiated at the two-quote
label. -/
theorem claim_C4_witness : escape_text "\"\"" = "" :=
  claim_C4 "\"\"" (by decide) (by decide)

/-- Claim C5 counterexample: an absent interface makes the
generate_visualization computation fail at the unguarded flows access
(an AttributeError, not an I/O failure), contradicting the claim that
every non-I/O input degrades to defaults. -/
theorem claim_C5_counterexample :
    generate_visualization_data none =
      Except.error "AttributeError: interface has no attribute flows" := rfl

/-- Claim C5 (amended): for every present interface exposing a flows
list, the whole non-I/O computation of generate_visualization succeeds —
arbitrary malformed flow attributes and unknown processor kinds degrade
to their defaults and never fail; only an absent interface or a missing
flows attribute raises. -/
theorem claim_C5 (i : Interface) (flows : List Flow) (h : i.flows = some flows) :
    generate_visualization_data (some i) =
      Except.ok (diagramText (some i),
        { nodes := vizNodes flows,
          links := vizLinks (generate_flow_diagram (some i)).2 (node_map flows) }) := by
  simp [generate_visualization_data, diagramText, h]

/-- Claim C5 witness: the amended statement instantiated at an interface
holding one degenerate flow record. -/
theorem claim_C5_witness :
    generate_visualization_data (some { flows := some [weirdFlow] }) =
      Except.ok (diagramText (some { flows := some [weirdFlow] }),
        { nodes := vizNodes [weirdFlow],
          links := vizLinks (generate_flow_diagram (some { flows := some [weirdFlow] })).2
            (node_map [weirdFlow]) }) :=
  claim_C5 { flows := some [weirdFlow] } [weirdFlow] rfl

/-- Claim C2 counterexample: two flows whose ids collide register a
single diagram node in the first pass, yet the visualization graph holds
two nodes — an extra node for the merged flow, contradicting the
one-node-per-registered-node claim. -/
theorem claim_C2_counterexample :
    ((nodesPass [dupFlow, dupFlow] []).2).length = 1 ∧
    (vizNodes [dupFlow, dupFlow]).length = 2 := by
  decide

/-- Claim C2 (amended): the visualization graph contains exactly one node
per flow of the input sequence — including flows the diagram pass skipped
for an empty id or merged on safeId collision — and assigns each its
zero-based position in the input as index. -/
theorem claim_C2 (flows : List Flow) :
    (vizNodes flows).length = flows.length ∧
    (vizNodes flows).map (fun n => n.id) = List.range flows.length := by
  constructor
  · simp [vizNodes]
  · have hcomp : ((fun n : VizNode => n.id) ∘ fun p : Nat × Flow =>
        ({ id := p.1, name := p.2.id.getD "unknown", type := viz_node_type p.2 } : VizNode)) =
        Prod.fst := rfl
    simp only [vizNodes, List.map_map, hcomp]
    exact List.enum_map_fst flows

/-- Claim C8: the identifier normalizer is total (a plain function of
the embedding), returns the literal "unknown" exactly on the empty
input, and on every non-empty input returns a match of the regular
expression with head [A-Za-z] and tail [A-Za-z0-9_]*. -/
theorem claim_C8 (s : String) :
    (s.data = [] → sanitize_id s = "unknown") ∧
    (s.data ≠ [] → matchesIdent (sanitize_id s) = true) := by
  constructor
  · intro h
    simp [sanitize_id, h]
  · intro h
    unfold sanitize_id
    rw [if_neg h]
    cases hcs : s.data with
    | nil => exact absurd hcs h
    | cons c rest =>
      simp only [List.map_cons]
      by_cases ha : (sanitizeChar c).isAlpha = true
      · simp only [ha, if_true]
        rw [matchesIdent_mk, Bool.and_eq_true]
        exact ⟨ha, all_identTail_map rest⟩
      · simp only [Bool.not_eq_true] at ha
        simp only [ha, Bool.false_eq_true, if_false]
        rw [matchesIdent_mk]
        rw [List.all_cons, List.all_cons]
        simp [isIdentTail_sanitizeChar, all_identTail_map]
        decide

/-- Claim C8 witness: the statement instantiated at an id starting with
a digit and holding a space and an exclamation mark. -/
theorem claim_C8_witness : matchesIdent (sanitize_id "1 Flow!") = true :=
  (claim_C8 "1 Flow!").2 (by decide)

/-- Claim C9: for an absent interface, an absent flows attribute or an
empty flow list, the graph builder returns the one-node no-flows-found
diagram with no edge lines and an empty reference index, as a normal
value. -/
theorem claim_C9 (interface : Option Interface)
    (h : interface = none ∨
      ∃ i, interface = some i ∧ (i.flows = none ∨ i.flows = some [])) :
    generate_flow_diagram interface = (noFlowsDiagram, []) ∧
    (generate_flow_diagram interface).1.filter isEdgeLine = [] ∧
    diagramText interface = "graph TD\nA[No flows found]" := by
  rcases h with rfl | ⟨i, rfl, hf | hf⟩
  · exact ⟨rfl, rfl, rfl⟩
  · simp [generate_flow_diagram, diagramText, hf]
    decide
  · simp [generate_flow_diagram, diagramText, hf]
    decide

/-- Claim C9 witness: the statement instantiated at the absent
interface. -/
theorem claim_C9_witness :
    generate_flow_diagram none = (noFlowsDiagram, []) ∧
    (generate_flow_diagram none).1.filter isEdgeLine = [] ∧
    diagramText none = "graph TD\nA[No flows found]" :=
  claim_C9 none (Or.inl rfl)

/-- Python dictionary insertion preserves the all-values-non-empty
invariant when the inserted value is non-empty. -/
theorem dictSet_values_ne_nil (d : List (String × List String)) (k : String)
    (v : List String) (hd : ∀ e ∈ d, e.2 ≠ []) (hv : v ≠ []) :
    ∀ e ∈ dictSet d k v, e.2 ≠ [] := by
  intro e he
  unfold dictSet at he
  split at he
  · obtain ⟨x, hx, hxe⟩ := List.mem_map.mp he
    by_cases h : x.1 = k
    · rw [if_pos h] at hxe
      subst hxe
      exact hv
    · rw [if_neg h] at hxe
      subst hxe
      exact hd x hx
  · rcases List.mem_append.mp he with h | h
    · exact hd e h
    · rw [List.mem_singleton] at h
      subst h
      exact hv

/-- The second pass only ever stores non-empty reference lists: starting
from a dictionary whose values are all non-empty, the final dictionary
keeps that invariant. -/
theorem edgesPass_values_ne_nil (nodes : List String) (flows : List Flow)
    (links : List (String × String)) (refIdx : List (String × List String)) :
    (∀ e ∈ refIdx, e.2 ≠ []) →
    ∀ e ∈ (edgesPass nodes flows links refIdx).2.2, e.2 ≠ [] := by
  induction flows, links, refIdx using edgesPass.induct nodes with
  | case1 links refIdx =>
    intro h e he
    simp only [edgesPass] at he
    exact h e he
  | case2 flow rest links refIdx hid ih =>
    intro h e he
    simp only [edgesPass, hid] at he
    exact ih h e he
  | case3 flow rest links refIdx hid ih =>
    intro h e he
    simp only [edgesPass, hid, if_pos] at he
    exact ih h e he
  | case4 flow rest links refIdx s hid hne fid procs hp r refIdx2 ih =>
    intro h e he
    simp only [edgesPass, hid, hne, hp, if_neg] at he
    refine ih ?_ e he
    show ∀ e ∈ (if r.2.2 = [] then refIdx else dictSet refIdx s r.2.2), e.2 ≠ []
    by_cases hz : r.2.2 = []
    · rw [if_pos hz]
      exact h
    · rw [if_neg hz]
      exact dictSet_values_ne_nil _ _ _ h hz
  | case5 flow rest links refIdx s hid hne hp ih =>
    intro h e he
    simp only [edgesPass, hid, hne, hp, if_neg] at he
    exact ih h e he

/-- The empty line list holds no edge pairs. -/
theorem pairsOf_nil : pairsOf [] = [] := rfl

/-- Edge pairs of a list beginning with an edge line. -/
theorem pairsOf_cons_edge (a b : String) (ls : List DiagramLine) :
    pairsOf (DiagramLine.edge a b :: ls) = (a, b) :: pairsOf ls := rfl

/-- The header line contributes no edge pair. -/
theorem pairsOf_cons_header (ls : List DiagramLine) :
    pairsOf (DiagramLine.header :: ls) = pairsOf ls := rfl

/-- Edge pairs distribute over concatenation. -/
theorem pairsOf_append (l1 l2 : List DiagramLine) :
    pairsOf (l1 ++ l2) = pairsOf l1 ++ pairsOf l2 := by
  simp [pairsOf, List.filterMap_append]

/-- Invariant of the processor loop: the final links set is the initial
one extended by exactly the emitted edge pairs, those pairs are distinct,
none of them was in the initial set, and every emitted line is an edge
line. -/
theorem processRefs_invariant (fid : String) (nodes : List String)
    (ps : List Processor) (links : List (String × String)) :
    (processRefs fid nodes ps links).2.1 =
      links ++ pairsOf (processRefs fid nodes ps links).1 ∧
    (pairsOf (processRefs fid nodes ps links).1).Nodup ∧
    (∀ pr ∈ pairsOf (processRefs fid nodes ps links).1, pr ∉ links) ∧
    (∀ l ∈ (processRefs fid nodes ps links).1, isEdgeLine l = true) := by
  induction ps, links using processRefs.induct fid nodes with
  | case1 links =>
    simp [processRefs, pairsOf]
  | case2 p rest links hex ih =>
    simp only [processRefs, hex, if_pos]
    exact ih
  | case3 p rest links n hex hne rid hmem hlink ih =>
    simp only [processRefs, hex, hne, hmem, hlink, if_neg, if_pos, if_false, if_true]
    exact ih
  | case4 p rest links n hex hne rid hmem hnlink ih =>
    simp only [processRefs, hex, hne, hmem, hnlink, if_neg, if_pos, if_false]
    obtain ⟨ih1, ih2, ih3, ih4⟩ := ih
    refine ⟨?_, ?_, ?_, ?_⟩
    · rw [pairsOf_cons_edge, ih1]
      simp
    · rw [pairsOf_cons_edge]
      refine List.Nodup.cons ?_ ih2
      intro hmem2
      have := ih3 (fid, rid) hmem2
      simp at this
    · rw [pairsOf_cons_edge]
      intro pr hpr
      rcases List.mem_cons.mp hpr with h | h
      · subst h
        exact hnlink
      · have := ih3 pr h
        intro hl
        exact this (List.mem_append_left _ hl)
    · intro l hl
      rcases List.mem_cons.mp hl with h | h
      · subst h
        rfl
      · exact ih4 l h
  | case5 p rest links n hex hne rid hnmem ih =>
    simp only [processRefs, hex, hne, hnmem, if_neg, if_false, if_true]
    exact ih
  | case6 p rest links hex ih =>
    simp only [processRefs, hex]
    exact ih

/-- Invariant of the second pass: the final links set extends the
initial one by exactly the emitted edge pairs, those pairs are distinct,
none of them was in the initial set, and every emitted line is an edge
line. -/
theorem edgesPass_invariant (nodes : List String) (flows : List Flow)
    (links : List (String × String)) (refIdx : List (String × List String)) :
    (edgesPass nodes flows links refIdx).2.1 =
      links ++ pairsOf (edgesPass nodes flows links refIdx).1 ∧
    (pairsOf (edgesPass nodes flows links refIdx).1).Nodup ∧
    (∀ pr ∈ pairsOf (edgesPass nodes flows links refIdx).1, pr ∉ links) ∧
    (∀ l ∈ (edgesPass nodes flows links refIdx).1, isEdgeLine l = true) := by
  induction flows, links, refIdx using edgesPass.induct nodes with
  | case1 links refIdx =>
    simp [edgesPass, pairsOf]
  | case2 flow rest links refIdx hid ih =>
    simp only [edgesPass, hid]
    exact ih
  | case3 flow rest links refIdx hid ih =>
    simp only [edgesPass, hid, if_pos]
    exact ih
  | case4 flow rest links refIdx s hid hne fid procs hp r refIdx2 ih =>
    simp only [edgesPass, hid, hne, hp, if_neg, if_false]
    obtain ⟨ih1, ih2, ih3, ih4⟩ := ih
    obtain ⟨p1, p2, p3, p4⟩ := processRefs_invariant fid nodes procs links
    refine ⟨?_, ?_, ?_, ?_⟩
    · rw [pairsOf_append, ih1, p1]
      simp
    · rw [pairsOf_append, List.nodup_append]
      refine ⟨p2, ih2, ?_⟩
      intro pr hpr hpr2
      have h3 := ih3 pr hpr2
      rw [p1] at h3
      exact h3 (List.mem_append_right links hpr)
    · rw [pairsOf_append]
      intro pr hpr
      rcases List.mem_append.mp hpr with h | h
      · exact p3 pr h
      · have h3 := ih3 pr h
        rw [p1] at h3
        intro hl
        exact h3 (List.mem_append_left _ hl)
    · intro l hl
      rcases List.mem_append.mp hl with h | h
      · exact p4 l h
      · exact ih4 l h
  | case5 flow rest links refIdx s hid hne hp ih =>
    simp only [edgesPass, hid, hne, hp, if_neg, if_false]
    exact ih

/-- The first pass emits no edge lines. -/
theorem nodesPass_no_edges (flows : List Flow) (nodes : List String) :
    pairsOf (nodesPass flows nodes).1 = [] := by
  induction flows, nodes using nodesPass.induct with
  | case1 nodes => rfl
  | case2 flow rest nodes hid ih =>
    simp only [nodesPass, hid]
    exact ih
  | case3 flow rest nodes hid ih =>
    simp only [nodesPass, hid, if_pos]
    exact ih
  | case4 flow rest nodes s hid hne fid hmem ih =>
    simp only [nodesPass, hid, hne, hmem, if_neg, if_pos, if_false, if_true]
    exact ih
  | case5 flow rest nodes s hid hne fid hnmem ih =>
    simp only [nodesPass, hid, hne, hnmem, if_neg, if_false]
    exact ih

/-- Claim C7: in the diagram produced for any input, each directed edge
pair appears at most once — the emitted edge pairs are pairwise
distinct. -/
theorem claim_C7 (interface : Option Interface) :
    (pairsOf (generate_flow_diagram interface).1).Nodup := by
  match interface with
  | none => decide
  | some i =>
    match hf : i.flows with
    | none =>
      simp [generate_flow_diagram, hf]
      decide
    | some [] =>
      simp [generate_flow_diagram, hf]
      decide
    | some (f :: fs) =>
      have h1 := nodesPass_no_edges (f :: fs) []
      have h2 := (edgesPass_invariant (nodesPass (f :: fs) []).2 (f :: fs) [] []).2.1
      simp only [generate_flow_diagram, hf]
      rw [pairsOf_cons_header, pairsOf_append, h1]
      simpa using h2

/-- Once a safeId is in the nodes set, the rest of the first pass emits
no node-declaration line and no style line for it. -/
theorem nodesPass_no_decl_of_mem (sid : String) (flows : List Flow) (nodes : List String) :
    sid ∈ nodes →
    (nodesPass flows nodes).1.filter (isDeclFor sid) = [] ∧
    (nodesPass flows nodes).1.filter (isStyleFor sid) = [] := by
  induction flows, nodes using nodesPass.induct with
  | case1 nodes =>
    intro h
    exact ⟨rfl, rfl⟩
  | case2 flow rest nodes hid ih =>
    intro h
    simp only [nodesPass, hid]
    exact ih h
  | case3 flow rest nodes hid ih =>
    intro h
    simp only [nodesPass, hid, if_pos]
    exact ih h
  | case4 flow rest nodes s hid hne fid hmem ih =>
    intro h
    simp only [nodesPass, hid, hne, hmem, if_neg, if_pos, if_false, if_true]
    exact ih h
  | case5 flow rest nodes s hid hne fid hnmem ih =>
    intro h
    have hfs : sanitize_id s ≠ sid := by
      intro he
      exact hnmem (show sanitize_id s ∈ nodes from he.symm ▸ h)
    simp only [nodesPass, hid, hne, hnmem, if_neg, if_false]
    rw [List.filter_cons_of_neg, List.filter_cons_of_neg,
        List.filter_cons_of_neg, List.filter_cons_of_neg]
    · exact ih (List.mem_append_left _ h)
    all_goals simp [isDeclFor, isStyleFor, hfs]

/-- The first pass emits exactly one node-declaration line and one style
line for a safeId whose first matching flow is f, and both lines carry
the classification and escaped label of that first flow. -/
theorem nodesPass_decl_of_find (sid : String) (flows : List Flow) (nodes : List String)
    (f : Flow) :
    sid ∉ nodes → flows.find? (flowHasSafeId sid) = some f →
    (nodesPass flows nodes).1.filter (isDeclFor sid) =
      [DiagramLine.nodeDecl sid (classify_flow f)
        (escape_text (displayName f (f.id.getD "")))] ∧
    (nodesPass flows nodes).1.filter (isStyleFor sid) =
      [DiagramLine.styleLine sid (classify_flow f)] := by
  induction flows, nodes using nodesPass.induct with
  | case1 nodes =>
    intro hs hfind
    simp at hfind
  | case2 flow rest nodes hid ih =>
    intro hs hfind
    rw [List.find?_cons_of_neg _ (by simp [flowHasSafeId, hid])] at hfind
    simp only [nodesPass, hid]
    exact ih hs hfind
  | case3 flow rest nodes hid ih =>
    intro hs hfind
    rw [List.find?_cons_of_neg _ (by simp [flowHasSafeId, hid])] at hfind
    simp only [nodesPass, hid, if_pos]
    exact ih hs hfind
  | case4 flow rest nodes s hid hne fid hmem ih =>
    intro hs hfind
    have hfs : sanitize_id s ≠ sid := by
      intro he
      exact hs (he ▸ hmem)
    rw [List.find?_cons_of_neg _ (by simp [flowHasSafeId, hid, hfs])] at hfind
    simp only [nodesPass, hid, hne, hmem, if_neg, if_pos, if_false, if_true]
    exact ih hs hfind
  | case5 flow rest nodes s hid hne fid hnmem ih =>
    intro hs hfind
    by_cases hfs : sanitize_id s = sid
    · rw [List.find?_cons_of_pos _ (by simp [flowHasSafeId, hid, hne, hfs])] at hfind
      injection hfind with hf
      subst hf
      simp only [nodesPass, hid, hne, hnmem, if_neg, if_false]
      rw [List.filter_cons_of_pos, List.filter_cons_of_neg,
          List.filter_cons_of_neg, List.filter_cons_of_pos]
      · constructor
        · rw [(nodesPass_no_decl_of_mem sid rest (nodes ++ [fid])
            (by simp [hfs.symm])).1]  -- tail contributes nothing
          rw [hfs]
          rfl
        · rw [(nodesPass_no_decl_of_mem sid rest (nodes ++ [fid])
            (by simp [hfs.symm])).2]
          rw [hfs]
      all_goals simp [isDeclFor, isStyleFor, hfs]
    · rw [List.find?_cons_of_neg _ (by simp [flowHasSafeId, hid, hfs])] at hfind
      simp only [nodesPass, hid, hne, hnmem, if_neg, if_false]
      rw [List.filter_cons_of_neg, List.filter_cons_of_neg,
          List.filter_cons_of_neg, List.filter_cons_of_neg]
      · exact ih (by simp [hs, hfs, Ne.symm hfs]) hfind
      all_goals simp [isDeclFor, isStyleFor, hfs]

/-- An edge line is neither a node-declaration line nor a style line. -/
theorem isEdge_not_declStyle (sid : String) (l : DiagramLine) (h : isEdgeLine l = true) :
    isDeclFor sid l = false ∧ isStyleFor sid l = false := by
  cases l <;> simp_all [isEdgeLine, isDeclFor, isStyleFor]

/-- Claim C6: whenever some flow of the input is the first whose
non-empty id normalizes to a given safeId (in particular whenever two
flows collide on it), the diagram text contains exactly one
node-declaration line and one style line for that safeId, carrying the
category and escaped display label of that first flow. -/
theorem claim_C6 (i : Interface) (flows : List Flow) (sid : String) (f : Flow)
    (hf : i.flows = some flows) (hfind : flows.find? (flowHasSafeId sid) = some f) :
    (generate_flow_diagram (some i)).1.filter (isDeclFor sid) =
      [DiagramLine.nodeDecl sid (classify_flow f)
        (escape_text (displayName f (f.id.getD "")))] ∧
    (generate_flow_diagram (some i)).1.filter (isStyleFor sid) =
      [DiagramLine.styleLine sid (classify_flow f)] := by
  cases flows with
  | nil => simp at hfind
  | cons g gs =>
    have hnp := nodesPass_decl_of_find sid (g :: gs) [] f (by simp) hfind
    have hedges := (edgesPass_invariant (nodesPass (g :: gs) []).2 (g :: gs) [] []).2.2.2
    have hd : ((edgesPass (nodesPass (g :: gs) []).2 (g :: gs) [] []).1.filter
        (isDeclFor sid)) = [] := by
      rw [List.filter_eq_nil_iff]
      intro l hl
      simp [(isEdge_not_declStyle sid l (hedges l hl)).1]
    have hst : ((edgesPass (nodesPass (g :: gs) []).2 (g :: gs) [] []).1.filter
        (isStyleFor sid)) = [] := by
      rw [List.filter_eq_nil_iff]
      intro l hl
      simp [(isEdge_not_declStyle sid l (hedges l hl)).2]
    simp only [generate_flow_diagram, hf]
    constructor
    · rw [List.filter_cons_of_neg, List.filter_append, hd, List.append_nil]
      · exact hnp.1
      · simp [isDeclFor]
    · rw [List.filter_cons_of_neg, List.filter_append, hst, List.append_nil]
      · exact hnp.2
      · simp [isStyleFor]


/-- Claim C6 witness: the statement instantiated at the two colliding
flows, showing the single node reflects the first (reusable) one. -/
theorem claim_C6_witness :
    (generate_flow_diagram (some collIface)).1.filter (isDeclFor "My_Flow") =
      [DiagramLine.nodeDecl "My_Flow" (classify_flow fColl1)
        (escape_text (displayName fColl1 (fColl1.id.getD "")))] ∧
    (generate_flow_diagram (some collIface)).1.filter (isStyleFor "My_Flow") =
      [DiagramLine.styleLine "My_Flow" (classify_flow fColl1)] :=
  claim_C6 collIface [fColl1, fColl2] "My_Flow" fColl1 rfl (by decide)

/-- Claim C10: every key of the reference index returned by the graph
builder maps to a non-empty list; a flow with no resolved references is
omitted rather than stored with an empty list. -/
theorem claim_C10 (interface : Option Interface) (k : String) (v : List String)
    (h : (k, v) ∈ (generate_flow_diagram interface).2) : v ≠ [] := by
  match interface with
  | none => simp [generate_flow_diagram] at h
  | some i =>
    match hf : i.flows with
    | none => simp [generate_flow_diagram, hf] at h
    | some [] => simp [generate_flow_diagram, hf] at h
    | some (f :: fs) =>
      have hm : (k, v) ∈ (edgesPass (nodesPass (f :: fs) []).2 (f :: fs) [] []).2.2 := by
        simpa [generate_flow_diagram, hf] using h
      exact edgesPass_values_ne_nil _ _ _ _ (by simp) (k, v) hm

/-- Claim C10 witness: the statement instantiated at the interface with
one resolved reference, whose index entry is the non-empty singleton. -/
theorem claim_C10_witness :
    ("RefSource", ["RefTarget"]) ∈ (generate_flow_diagram refIface).2 ∧
    (["RefTarget"] : List String) ≠ [] :=
  ⟨by decide, claim_C10 refIface "RefSource" ["RefTarget"] (by decide)⟩

end FlowViz
